import Mathlib

/-!
Verification development for the SILIC Digital Signer prototype.

The JavaScript source is shallowly embedded: file names are `List Char`
(JS strings are character sequences), sizes are `Nat` (non-negative byte
counts), the random draws of `Math.random()` are explicit rational
parameters in `[0,1)`, and the user-facing alert messages emitted through
`Utils.showAlert` are represented by one constructor per distinct message
template.
-/

/-- The alert messages the embedded code can emit through `Utils.showAlert`,
one constructor per distinct message template in the source. -/
inductive Alert where
  | maxFilesExceeded
  | fileTooLarge (name : List Char)
  | fileTypeNotSupported (name : List Char)
  | duplicateFile (name : List Char)
  | minOneDocument
  | maxSignersReached
  | minOneSigner
deriving DecidableEq

/-- Embeds JavaScript `fileName.split('.')`: splits a character list at every
`'.'`, keeping empty segments, and returning `[[]]` on the empty string. -/
def splitOnDot : List Char → List (List Char)
  | [] => [[]]
  | c :: rest =>
    if c = '.' then [] :: splitOnDot rest
    else
      match splitOnDot rest with
      | [] => [[c]]
      | p :: ps => (c :: p) :: ps

/-- Embeds `fileName.split('.').pop()`: the last segment produced by
`splitOnDot`. -/
def lastSegment (s : List Char) : List Char :=
  (splitOnDot s).getLastD []

/-- The default allowed extension list `['.pdf', '.docx', '.txt']` from
`Utils.isFileTypeAllowed` (also passed explicitly by
`MultipleItemsManager.validateFile`). -/
def allowedTypes : List (List Char) :=
  ["pdf".toList, "docx".toList, "txt".toList].map (fun e => '.' :: e)

/-- Embeds `Utils.isFileTypeAllowed`: lower-case the text after the last dot,
prefix a dot, and test membership in the allowed list. `Char.toLower` matches
JS `toLowerCase` on the ASCII letters that occur in extensions. -/
def isFileTypeAllowed (fileName : List Char) : Bool :=
  allowedTypes.contains ('.' :: (lastSegment fileName).map Char.toLower)

/-- Specification-side reading of "the text after the last dot": drop
everything up to and including the last `'.'` of the name (the whole name
when it has no dot). Used only to compare with `lastSegment`. -/
def afterLastDot : List Char → List Char
  | [] => []
  | c :: rest =>
    if '.' ∈ rest then afterLastDot rest
    else if c = '.' then rest
    else c :: rest

theorem splitOnDot_ne_nil (s : List Char) : splitOnDot s ≠ [] := by
  cases s with
  | nil => simp [splitOnDot]
  | cons c rest =>
    simp only [splitOnDot]
    split
    · simp
    · cases h : splitOnDot rest <;> simp

theorem splitOnDot_of_not_mem (s : List Char) (h : '.' ∉ s) :
    splitOnDot s = [s] := by
  induction s with
  | nil => rfl
  | cons c rest ih =>
    have hc : c ≠ '.' := by
      intro hc; exact h (by simp [hc])
    have hrest : '.' ∉ rest := fun hm => h (List.mem_cons_of_mem _ hm)
    simp [splitOnDot, hc, ih hrest]

theorem splitOnDot_two_le_of_mem (s : List Char) (h : '.' ∈ s) :
    2 ≤ (splitOnDot s).length := by
  induction s with
  | nil => simp at h
  | cons c rest ih =>
    by_cases hc : c = '.'
    · have h1 : 0 < (splitOnDot rest).length :=
        List.length_pos.mpr (splitOnDot_ne_nil rest)
      simp only [splitOnDot, if_pos hc, List.length_cons]
      omega
    · have hrest : '.' ∈ rest := by
        rcases List.mem_cons.mp h with h' | h'
        · exact absurd h'.symm hc
        · exact h'
      have := ih hrest
      simp only [splitOnDot, if_neg hc]
      cases hsp : splitOnDot rest with
      | nil => exact absurd hsp (splitOnDot_ne_nil rest)
      | cons p ps =>
        rw [hsp] at this
        simpa using this

theorem getLastD_cons_of_ne_nil {α : Type} (a : α) (l : List α) (d : α)
    (h : l ≠ []) : (a :: l).getLastD d = l.getLastD d := by
  cases l with
  | nil => exact absurd rfl h
  | cons b bs => simp [List.getLastD]

theorem lastSegment_eq_afterLastDot (s : List Char) :
    lastSegment s = afterLastDot s := by
  induction s with
  | nil => rfl
  | cons c rest ih =>
    by_cases hm : '.' ∈ rest
    · have hlen := splitOnDot_two_le_of_mem rest hm
      by_cases hc : c = '.'
      · unfold lastSegment afterLastDot
        simp only [splitOnDot, if_pos hc, if_pos hm]
        rw [getLastD_cons_of_ne_nil _ _ _ (splitOnDot_ne_nil rest)]
        exact ih
      · unfold lastSegment afterLastDot
        simp only [splitOnDot, if_neg hc, if_pos hm]
        cases hsp : splitOnDot rest with
        | nil => exact absurd hsp (splitOnDot_ne_nil rest)
        | cons p ps =>
          have hps : ps ≠ [] := by
            rw [hsp] at hlen
            cases ps with
            | nil => simp at hlen
            | cons q qs => simp
          rw [getLastD_cons_of_ne_nil _ _ _ hps]
          unfold lastSegment at ih
          rw [hsp] at ih
          rw [← ih]
          exact (getLastD_cons_of_ne_nil p ps [] hps).symm
    · by_cases hc : c = '.'
      · unfold lastSegment afterLastDot
        simp only [splitOnDot, if_pos hc, if_neg hm]
        rw [splitOnDot_of_not_mem rest hm]
        simp [List.getLastD]
      · unfold lastSegment afterLastDot
        simp only [splitOnDot, if_neg hc, if_neg hm]
        rw [splitOnDot_of_not_mem rest hm]
        simp [List.getLastD]

/-- A record of the File Collection, as built by
`MultipleItemsManager.addFile` (`id` comes from `Utils.generateId`). -/
structure FileObj where
  id : String
  name : List Char
  size : Nat
  type : String
deriving DecidableEq

/-- A raw file handle coming from the file input (`event.target.files`). -/
structure RawFile where
  name : List Char
  size : Nat
  type : String
deriving DecidableEq

/-- `this.maxFiles` in `MultipleItemsManager`. -/
def maxFiles : Nat := 10

/-- `this.maxFileSize` in `MultipleItemsManager` (10 MiB). -/
def maxFileSize : Nat := 10 * 1024 * 1024

/-- Embeds `MultipleItemsManager.validateFile`: size check, then extension
check, then duplicate-by-(name, size) check against the current collection.
Returns the verdict together with the alert it shows on rejection. -/
def validateFile (selectedFiles : List FileObj) (file : RawFile) :
    Bool × Option Alert :=
  if file.size > maxFileSize then
    (false, some (Alert.fileTooLarge file.name))
  else if ¬ isFileTypeAllowed file.name then
    (false, some (Alert.fileTypeNotSupported file.name))
  else if selectedFiles.any
      (fun g => g.name == file.name && g.size == file.size) then
    (false, some (Alert.duplicateFile file.name))
  else
    (true, none)

/-- Embeds `MultipleItemsManager.addFile`: push a new record, with the fresh
id supplied by the caller (the source draws it from `Utils.generateId`). -/
def addFile (selectedFiles : List FileObj) (fid : String) (f : RawFile) :
    List FileObj :=
  selectedFiles ++ [{ id := fid, name := f.name, size := f.size, type := f.type }]

/-- One step of the `fileArray.forEach` loop of `handleFileSelection`:
validate the candidate against the current collection, append it when valid
(consuming one fresh id), record the alert otherwise. -/
def selectStep (acc : List FileObj × List String × List Alert) (f : RawFile) :
    List FileObj × List String × List Alert :=
  match validateFile acc.1 f with
  | (true, _) => (addFile acc.1 (acc.2.1.headD "") f, acc.2.1.tail, acc.2.2)
  | (false, a) => (acc.1, acc.2.1, acc.2.2 ++ a.toList)

/-- Embeds `MultipleItemsManager.handleFileSelection`: if the batch would
push the collection past `maxFiles`, reject the whole batch with one capacity
alert and change nothing; otherwise validate-and-append each candidate in
order. `ids` is the stream of fresh ids `Utils.generateId` would produce.
Returns the new collection and the alerts emitted. -/
def handleFileSelection (selectedFiles : List FileObj) (ids : List String)
    (files : List RawFile) : List FileObj × List Alert :=
  if selectedFiles.length + files.length > maxFiles then
    (selectedFiles, [Alert.maxFilesExceeded])
  else
    let r := files.foldl selectStep (selectedFiles, ids, [])
    (r.1, r.2.2)

/-- Embeds `MultipleItemsManager.removeFile`: find the first record whose id
matches (`findIndex`), and splice it out when found (`index > -1`). -/
def removeFile (selectedFiles : List FileObj) (fid : String) : List FileObj :=
  match selectedFiles.findIdx? (fun f => f.id == fid) with
  | some i => selectedFiles.eraseIdx i
  | none => selectedFiles

/-- Embeds `MultipleItemsManager.clearAllFiles` on the collection state. -/
def clearAllFiles (_selectedFiles : List FileObj) : List FileObj := []

/-- The File Collection invariant of the claims: bounded size, no two
records with equal `(name, size)`, and every record passed the individual
size and extension checks. -/
def FilesInvariant (st : List FileObj) : Prop :=
  st.length ≤ maxFiles ∧
  st.Pairwise (fun a b => ¬ (a.name = b.name ∧ a.size = b.size)) ∧
  ∀ f ∈ st, f.size ≤ maxFileSize ∧ isFileTypeAllowed f.name = true

/-- The per-record part of `FilesInvariant`, preserved file by file. -/
def GoodFiles (st : List FileObj) : Prop :=
  st.Pairwise (fun a b => ¬ (a.name = b.name ∧ a.size = b.size)) ∧
  ∀ f ∈ st, f.size ≤ maxFileSize ∧ isFileTypeAllowed f.name = true

theorem validateFile_true_iff (st : List FileObj) (f : RawFile) :
    (validateFile st f).1 = true ↔
      f.size ≤ maxFileSize ∧ isFileTypeAllowed f.name = true ∧
      ∀ g ∈ st, ¬ (g.name = f.name ∧ g.size = f.size) := by
  unfold validateFile
  split_ifs with h1 h2 h3
  · simp only [false_iff]
    intro h
    omega
  · simp only [false_iff]
    intro h
    simp only [List.any_eq_true, Bool.and_eq_true, beq_iff_eq] at h3
    obtain ⟨g, hg, hgn, hgs⟩ := h3
    exact absurd ⟨hgn, hgs⟩ (h.2.2 g hg)
  · simp only [true_iff, show ((true : Bool), (none : Option Alert)).1 = true from rfl]
    refine ⟨by omega, h2, ?_⟩
    intro g hg hc
    exact h3 (by
      simp only [List.any_eq_true, Bool.and_eq_true, beq_iff_eq]
      exact ⟨g, hg, hc.1, hc.2⟩)
  · simp only [false_iff]
    intro h
    exact h2 h.2.1

theorem selectStep_of_true (st : List FileObj) (ids : List String)
    (al : List Alert) (f : RawFile) (h : (validateFile st f).1 = true) :
    selectStep (st, ids, al) f = (addFile st (ids.headD "") f, ids.tail, al) := by
  unfold selectStep
  cases hv : validateFile st f with
  | mk b a =>
    rw [hv] at h
    simp only at h
    subst h
    rfl

theorem selectStep_of_false (st : List FileObj) (ids : List String)
    (al : List Alert) (f : RawFile) (h : (validateFile st f).1 = false) :
    selectStep (st, ids, al) f = (st, ids, al ++ (validateFile st f).2.toList) := by
  unfold selectStep
  cases hv : validateFile st f with
  | mk b a =>
    rw [hv] at h
    simp only at h
    subst h
    rfl

theorem foldl_selectStep_good (files : List RawFile) (st : List FileObj)
    (ids : List String) (al : List Alert) (hst : GoodFiles st) :
    GoodFiles (files.foldl selectStep (st, ids, al)).1 ∧
    (files.foldl selectStep (st, ids, al)).1.length ≤ st.length + files.length := by
  induction files generalizing st ids al with
  | nil => exact ⟨hst, by simp⟩
  | cons f fs ih =>
    rw [List.foldl_cons]
    by_cases hv : (validateFile st f).1 = true
    · rw [selectStep_of_true st ids al f hv]
      have hchecks := (validateFile_true_iff st f).mp hv
      have hgood : GoodFiles (addFile st (ids.headD "") f) := by
        constructor
        · unfold addFile
          rw [List.pairwise_append]
          refine ⟨hst.1, List.pairwise_singleton _ _, ?_⟩
          intro a ha b hb
          simp only [List.mem_singleton] at hb
          subst hb
          exact hchecks.2.2 a ha
        · intro g hg
          unfold addFile at hg
          rcases List.mem_append.mp hg with hgl | hgr
          · exact hst.2 g hgl
          · simp only [List.mem_singleton] at hgr
            subst hgr
            exact ⟨hchecks.1, hchecks.2.1⟩
      have hrec := ih (addFile st (ids.headD "") f) ids.tail al hgood
      have hlen : (addFile st (ids.headD "") f).length = st.length + 1 := by
        simp [addFile]
      refine ⟨hrec.1, le_trans hrec.2 ?_⟩
      rw [hlen]
      simp only [List.length_cons]
      omega
    · rw [selectStep_of_false st ids al f (Bool.not_eq_true _ ▸ hv)]
      have hrec := ih st ids (al ++ (validateFile st f).2.toList) hst
      refine ⟨hrec.1, le_trans hrec.2 ?_⟩
      simp only [List.length_cons]
      omega

theorem handleFileSelection_preserves (st : List FileObj) (ids : List String)
    (files : List RawFile) (hst : FilesInvariant st) :
    FilesInvariant (handleFileSelection st ids files).1 := by
  by_cases hcap : st.length + files.length > maxFiles
  · unfold handleFileSelection
    rw [if_pos hcap]
    exact hst
  · have h1 : (handleFileSelection st ids files).1
        = (files.foldl selectStep (st, ids, [])).1 := by
      unfold handleFileSelection
      rw [if_neg hcap]
    rw [h1]
    have hfold := foldl_selectStep_good files st ids [] ⟨hst.2.1, hst.2.2⟩
    refine ⟨?_, hfold.1.1, hfold.1.2⟩
    have h2 := hfold.2
    omega

theorem findIdx?_shift {α : Type} (p : α → Bool) (l : List α) (i : Nat) :
    l.findIdx? p i = (l.findIdx? p 0).map (· + i) := by
  induction l generalizing i with
  | nil => rfl
  | cons a as ih =>
    rw [List.findIdx?_cons, List.findIdx?_cons]
    by_cases hp : p a = true
    · simp [hp]
    · rw [if_neg hp, if_neg hp, ih (i + 1), ih 1, Option.map_map]
      congr 1
      funext j
      simp only [Function.comp_def]
      omega

theorem removeFile_cons_ne (a : FileObj) (as : List FileObj) (fid : String)
    (h : (a.id == fid) = false) :
    removeFile (a :: as) fid = a :: removeFile as fid := by
  unfold removeFile
  rw [List.findIdx?_cons, if_neg (by simp [h]), findIdx?_shift]
  cases hfi : as.findIdx? (fun f => f.id == fid) 0 with
  | none => rfl
  | some j => rfl

theorem removeFile_cons_eq (a : FileObj) (as : List FileObj) (fid : String)
    (h : (a.id == fid) = true) :
    removeFile (a :: as) fid = as := by
  unfold removeFile
  rw [List.findIdx?_cons, if_pos (by simp [h])]
  rfl

theorem removeFile_no_match (st : List FileObj) (fid : String) :
    (∀ f ∈ st, f.id ≠ fid) → removeFile st fid = st := by
  induction st with
  | nil => intro _; rfl
  | cons a as ih =>
    intro hall
    have h' : (a.id == fid) = false :=
      beq_eq_false_iff_ne.mpr (hall a (by simp))
    rw [removeFile_cons_ne a as fid h', ih (fun f hf => hall f (by simp [hf]))]

/-- C2: for every sequence of `selectFiles` batches applied to an initially
empty File Collection, the collection size never exceeds `maxFiles = 10`,
no two records share `(name, size)`, and every appended record passed the
individual size and extension checks. -/
theorem fileCollection_invariant_all_batches
    (batches : List (List String × List RawFile)) :
    FilesInvariant (batches.foldl
      (fun st b => (handleFileSelection st b.1 b.2).1) []) := by
  suffices h : ∀ st, FilesInvariant st →
      FilesInvariant (batches.foldl
        (fun st b => (handleFileSelection st b.1 b.2).1) st) by
    exact h [] ⟨by simp [maxFiles], List.Pairwise.nil, by simp⟩
  induction batches with
  | nil => intro st hst; exact hst
  | cons b bs ih =>
    intro st hst
    exact ih _ (handleFileSelection_preserves st b.1 b.2 hst)

/-- C4: a batch whose candidate count plus the current collection size
exceeds `maxFiles` is rejected whole: the collection is unchanged and the
only alert is the single capacity message. -/
theorem batch_capacity_rejected (st : List FileObj) (ids : List String)
    (files : List RawFile) (h : st.length + files.length > maxFiles) :
    handleFileSelection st ids files = (st, [Alert.maxFilesExceeded]) := by
  unfold handleFileSelection
  rw [if_pos h]

/-- Eleven pairwise-distinct candidates that each would individually pass
the size and extension checks. -/
def elevenFiles : List RawFile :=
  (List.range 11).map
    (fun i => { name := "doc.pdf".toList, size := i, type := "application/pdf" })

/-- Witness for C4: selecting 11 individually valid files into an empty
collection leaves the collection empty and emits exactly one capacity
alert. -/
theorem batch_capacity_rejected_witness :
    handleFileSelection [] [] elevenFiles = ([], [Alert.maxFilesExceeded]) ∧
    elevenFiles.all (fun f => (validateFile [] f).1) = true :=
  ⟨batch_capacity_rejected [] [] elevenFiles (by decide), by decide⟩

/-- C8: the extension check is case-insensitive — a name is accepted exactly
when the lower-cased text after its last dot, prefixed with a dot, is one of
`.pdf`, `.docx`, `.txt`; in particular `A.PDF` and `b.Txt` pass. -/
theorem extension_check_case_insensitive :
    (∀ fileName : List Char,
      isFileTypeAllowed fileName = true ↔
        ('.' :: (afterLastDot fileName).map Char.toLower) ∈ allowedTypes) ∧
    isFileTypeAllowed "A.PDF".toList = true ∧
    isFileTypeAllowed "b.Txt".toList = true := by
  refine ⟨?_, by decide, by decide⟩
  intro fileName
  unfold isFileTypeAllowed
  rw [lastSegment_eq_afterLastDot]
  exact List.elem_iff

/-- C9: `removeFile id` removes exactly the first record whose id matches,
leaving the preceding records and all records after the match unchanged and
in order (the collection equals the prefix before the first match followed
by everything after it), and leaves the collection entirely unchanged when
no record carries that id. -/
theorem removeFile_frame (st : List FileObj) (fid : String) :
    removeFile st fid
      = st.takeWhile (fun f => f.id != fid)
          ++ (st.dropWhile (fun f => f.id != fid)).tail ∧
    ((∀ f ∈ st, f.id ≠ fid) → removeFile st fid = st) := by
  refine ⟨?_, removeFile_no_match st fid⟩
  induction st with
  | nil => rfl
  | cons a as ih =>
    by_cases h : (a.id == fid) = true
    · have hne : (a.id != fid) = false := by simp [bne, h]
      rw [removeFile_cons_eq a as fid h, List.takeWhile_cons, List.dropWhile_cons]
      simp [hne]
    · have h' : (a.id == fid) = false := by simpa using h
      have hne : (a.id != fid) = true := by simp [bne, h']
      rw [removeFile_cons_ne a as fid h', ih, List.takeWhile_cons,
        List.dropWhile_cons]
      simp [hne]

/-- A sample collection record used by concrete witnesses. -/
def sampleFile : FileObj :=
  ⟨"id-1", "a.pdf".toList, 7, "application/pdf"⟩

/-- Witness for C9: removing an absent id from a one-record collection is a
no-op. -/
theorem removeFile_frame_witness :
    removeFile [sampleFile] "id-2" = [sampleFile] :=
  (removeFile_frame [sampleFile] "id-2").2 (by decide)

/-- One `.signer-item` element of the signers container: its
`data-signer-index` attribute (set at creation and never renumbered) and its
three field values. -/
structure SignerItem where
  dataIndex : Nat
  name : String
  email : String
  role : String
deriving DecidableEq

/-- JS `value.trim()`, modelled directly on the character list (whitespace
restricted to the ASCII escapes Lean's `Char.isWhitespace` covers). -/
def jsTrim (s : String) : String :=
  ((s.toList.dropWhile Char.isWhitespace).reverse.dropWhile
    Char.isWhitespace).reverse.asString

/-- `this.maxSigners` in `MultipleItemsManager`. -/
def maxSigners : Nat := 10

/-- Embeds `MultipleItemsManager.addSigner`: when the container already has
`maxSigners` children, show the warning and change nothing; otherwise append
a fresh empty signer item whose `data-signer-index` is the current count. -/
def addSigner (signers : List SignerItem) : List SignerItem × Option Alert :=
  if signers.length ≥ maxSigners then
    (signers, some Alert.maxSignersReached)
  else
    (signers ++ [⟨signers.length, "", "", ""⟩], none)

/-- Embeds `MultipleItemsManager.removeSigner`: when only one signer item is
left, show the warning and change nothing; otherwise remove the clicked item
(given here by its position in the container). -/
def removeSigner (signers : List SignerItem) (pos : Nat) :
    List SignerItem × Option Alert :=
  if signers.length ≤ 1 then
    (signers, some Alert.minOneSigner)
  else
    (signers.eraseIdx pos, none)

/-- A signer record as extracted by `MultipleItemsManager.getFormData`:
trimmed name and email, role, and `index` re-derived as the item's current
position in the container. -/
structure SignerData where
  name : String
  email : String
  role : String
  index : Nat
deriving DecidableEq

/-- Embeds the signer-extraction loop of `MultipleItemsManager.getFormData`
(`Array.from(signersContainer.children).map((signer, index) => ...)`). -/
def getSigners (signers : List SignerItem) : List SignerData :=
  signers.mapIdx (fun i s => ⟨jsTrim s.name, jsTrim s.email, s.role, i⟩)

/-- A user action on the Signer Collection. -/
inductive SignerOp where
  | add
  | remove (pos : Nat)

/-- The state change of one Signer Collection action. -/
def applySignerOp (signers : List SignerItem) : SignerOp → List SignerItem
  | SignerOp.add => (addSigner signers).1
  | SignerOp.remove pos => (removeSigner signers pos).1

/-- The container right after initialization: the single first signer. -/
def initialSigners : List SignerItem := [⟨0, "", "", ""⟩]

theorem getSigners_indices (signers : List SignerItem) :
    (getSigners signers).map (fun d => d.index) = List.range signers.length := by
  unfold getSigners
  rw [List.mapIdx_eq_enum_map, List.map_map, ← List.enum_map_fst signers]
  rfl

/-- C3: starting from the initialized single-signer container, every
sequence of add/remove actions keeps the Signer Collection size within
`[1, maxSigners = 10]`; `addSigner` at size 10 warns and changes nothing;
`removeSigner` at size 1 warns and changes nothing; and a successful
removal removes exactly the chosen item and re-derives the extracted
positions as `0, …, n-2`. -/
theorem signerCollection_bounds :
    (∀ ops : List SignerOp,
      1 ≤ (ops.foldl applySignerOp initialSigners).length ∧
      (ops.foldl applySignerOp initialSigners).length ≤ maxSigners) ∧
    (∀ signers : List SignerItem, signers.length = maxSigners →
      addSigner signers = (signers, some Alert.maxSignersReached)) ∧
    (∀ (signers : List SignerItem) (pos : Nat), signers.length = 1 →
      removeSigner signers pos = (signers, some Alert.minOneSigner)) ∧
    (∀ (signers : List SignerItem) (pos : Nat),
      2 ≤ signers.length → pos < signers.length →
      (removeSigner signers pos).1 = signers.eraseIdx pos ∧
      ((getSigners (removeSigner signers pos).1).map (fun d => d.index)
        = List.range (signers.length - 1))) := by
  refine ⟨?_, ?_, ?_, ?_⟩
  · intro ops
    suffices h : ∀ st : List SignerItem, 1 ≤ st.length → st.length ≤ maxSigners →
        1 ≤ (ops.foldl applySignerOp st).length ∧
        (ops.foldl applySignerOp st).length ≤ maxSigners by
      exact h initialSigners (by simp [initialSigners]) (by simp [initialSigners, maxSigners])
    induction ops with
    | nil => intro st h1 h2; exact ⟨h1, h2⟩
    | cons op rest ih =>
      intro st h1 h2
      rw [List.foldl_cons]
      cases op with
      | add =>
        by_cases hfull : st.length ≥ maxSigners
        · have : applySignerOp st SignerOp.add = st := by
            simp [applySignerOp, addSigner, hfull]
          rw [this]
          exact ih st h1 h2
        · have : (applySignerOp st SignerOp.add).length = st.length + 1 := by
            simp [applySignerOp, addSigner, hfull]
          refine ih _ (by omega) (by omega)
      | remove pos =>
        by_cases hone : st.length ≤ 1
        · have : applySignerOp st (SignerOp.remove pos) = st := by
            simp [applySignerOp, removeSigner, hone]
          rw [this]
          exact ih st h1 h2
        · have : (applySignerOp st (SignerOp.remove pos)).length
              = if pos < st.length then st.length - 1 else st.length := by
            simp [applySignerOp, removeSigner, hone, List.length_eraseIdx]
          by_cases hpos : pos < st.length
          · rw [if_pos hpos] at this
            refine ih _ (by omega) (by omega)
          · rw [if_neg hpos] at this
            refine ih _ (by omega) (by omega)
  · intro signers hlen
    unfold addSigner
    rw [if_pos (by omega)]
  · intro signers pos hlen
    unfold removeSigner
    rw [if_pos (by omega)]
  · intro signers pos h2 hpos
    have hres : (removeSigner signers pos).1 = signers.eraseIdx pos := by
      unfold removeSigner
      rw [if_neg (by omega)]
    refine ⟨hres, ?_⟩
    rw [hres, getSigners_indices, List.length_eraseIdx, if_pos hpos]

/-- Witness for C3: at a concrete two-signer container, adding at capacity
warns, removing at size 1 warns, and removing position 0 of two signers
keeps one signer with re-derived position 0. -/
theorem signerCollection_bounds_witness :
    addSigner (List.replicate 10 (⟨0, "", "", ""⟩ : SignerItem))
      = (List.replicate 10 (⟨0, "", "", ""⟩ : SignerItem),
         some Alert.maxSignersReached) ∧
    removeSigner initialSigners 0 = (initialSigners, some Alert.minOneSigner) ∧
    (removeSigner [⟨0, "a", "b", "c"⟩, ⟨1, "d", "e", "f"⟩] 0).1
      = [(⟨1, "d", "e", "f"⟩ : SignerItem)] ∧
    (getSigners (removeSigner [(⟨0, "a", "b", "c"⟩ : SignerItem), ⟨1, "d", "e", "f"⟩] 0).1).map
        (fun d => d.index) = List.range 1 := by
  refine ⟨?_, ?_, ?_, ?_⟩
  · exact signerCollection_bounds.2.1 _ (by decide)
  · exact signerCollection_bounds.2.2.1 _ 0 (by decide)
  · exact (signerCollection_bounds.2.2.2 _ 0 (by decide) (by decide)).1
  · exact (signerCollection_bounds.2.2.2 _ 0 (by decide) (by decide)).2

/-- One checkbox of the assignment matrix, named
`assignment[signerIndex][fileId]` in the DOM, with its checked state. -/
structure CheckboxInput where
  signerIndex : Nat
  fileId : String
  checked : Bool
deriving DecidableEq

/-- Appends `fid` to the entry of signer `i`, creating the entry when
missing — the body of the `if (input.checked)` branch of
`MultipleItemsManager.getFormData`. -/
def addAssign (m : List (Nat × List String)) (i : Nat) (fid : String) :
    List (Nat × List String) :=
  match m.lookup i with
  | some _ => m.map (fun p => if p.1 = i then (p.1, p.2 ++ [fid]) else p)
  | none => m ++ [(i, [fid])]

/-- Embeds the assignment-collection loop of
`MultipleItemsManager.getFormData`: only checked cells are recorded. -/
def collectAssignments (inputs : List CheckboxInput) :
    List (Nat × List String) :=
  inputs.foldl
    (fun m inp => if inp.checked then addAssign m inp.signerIndex inp.fileId else m)
    []

/-- The object returned by `MultipleItemsManager.getFormData`. -/
structure MultipleItemsData where
  files : List FileObj
  signers : List SignerData
  sequentialSigning : Bool
  documentAssignments : Option (List (Nat × List String))
deriving DecidableEq

/-- Embeds `MultipleItemsManager.getFormData`: extract the signers with
re-derived positional indices, read the two checkboxes, and attach the
collected assignments only when assignment mode is enabled
(`documentAssignments: enableDocumentAssignment ? documentAssignments : null`). -/
def managerGetFormData (files : List FileObj) (signers : List SignerItem)
    (sequentialSigning : Bool) (enableDocumentAssignment : Bool)
    (assignmentInputs : List CheckboxInput) : MultipleItemsData :=
  { files := files
    signers := getSigners signers
    sequentialSigning := sequentialSigning
    documentAssignments :=
      if enableDocumentAssignment then some (collectAssignments assignmentInputs)
      else none }

/-- The signers associated with one file inside
`DigitalSignerApp.signMultipleDocuments`: the full signer list when
`documentAssignments` is null, otherwise the signers whose positional index
has an entry containing the file's id
(`signers.filter((signer, index) => documentAssignments[index]?.includes(file.id))`). -/
def fileSigners (data : MultipleItemsData) (file : FileObj) : List SignerData :=
  match data.documentAssignments with
  | none => data.signers
  | some assigns =>
      (data.signers.enum.filter (fun p =>
        match assigns.lookup p.1 with
        | some fileIds => fileIds.contains file.id
        | none => false)).map Prod.snd

/-- The per-signer status expression of `signMultipleDocuments`:
`sequentialSigning && signer.index > 0 ? 'pending' : 'signed'`. -/
def signerStatus (data : MultipleItemsData) (signer : SignerData) : String :=
  if data.sequentialSigning && decide (signer.index > 0) then "pending" else "signed"

/-- The document summary of one signing result (the `signatureDate` and
`certificateId` display strings, which are drawn from the clock and the
random token generator, are not modelled). -/
structure DocSummary where
  id : String
  originalName : List Char
  signedName : List Char
  size : ℚ
  type : String
deriving DecidableEq

/-- One per-signer entry of a signing result. -/
structure SignerStatusEntry where
  name : String
  email : String
  role : String
  status : String
deriving DecidableEq

/-- One element of `signingResults` in `signMultipleDocuments`. -/
structure DocumentResult where
  document : DocSummary
  signers : List SignerStatusEntry
deriving DecidableEq

/-- Embeds the `signingResults` construction of `signMultipleDocuments`:
one result per file, carrying the document summary (`signed_` name prefix,
size scaled by 1.1) and one status entry per associated signer. -/
def signingResults (data : MultipleItemsData) : List DocumentResult :=
  data.files.map (fun file =>
    { document :=
        { id := file.id
          originalName := file.name
          signedName := "signed_".toList ++ file.name
          size := (file.size : ℚ) * (11 / 10)
          type := file.type }
      signers := (fileSigners data file).map (fun signer =>
        { name := signer.name
          email := signer.email
          role := signer.role
          status := signerStatus data signer }) })

/-- The success payload of `signMultipleDocuments` (the `message`, `duration`
and random `processId` display fields are not modelled). -/
structure MultiSignOutcome where
  success : Bool
  results : List DocumentResult
  sequentialSigning : Bool
deriving DecidableEq

/-- The multi-document failure threshold: `Math.random() < 0.05`. -/
def multiFailureThreshold : ℚ := 5 / 100

/-- The single-document failure threshold: `Math.random() < 0.1`. -/
def singleFailureThreshold : ℚ := 10 / 100

/-- The `setTimeout` delay of `signMultipleDocuments`:
`3000 + Math.random() * 2000`, with the draw made explicit. -/
def multiDelayMs (delayDraw : ℚ) : ℚ := 3000 + delayDraw * 2000

/-- The `setTimeout` delay of `signDocument`:
`2000 + Math.random() * 1000`, with the draw made explicit. -/
def singleDelayMs (delayDraw : ℚ) : ℚ := 2000 + delayDraw * 1000

/-- Embeds the resolution of `DigitalSignerApp.signMultipleDocuments` with
the failure draw of `Math.random()` made explicit: reject with the
communication-failure error below the threshold, otherwise resolve with the
synthesized results. The function reads only the request, so no collection
state can change on either branch. -/
def signMultipleDocumentsResult (data : MultipleItemsData) (failureDraw : ℚ) :
    Except String MultiSignOutcome :=
  if failureDraw < multiFailureThreshold then
    Except.error "Falha na comunicação com o servidor"
  else
    Except.ok
      { success := true
        results := signingResults data
        sequentialSigning := data.sequentialSigning }

/-- The single-document legacy request of `DigitalSignerApp.signDocument`. -/
structure SingleDocData where
  signerName : String
  docName : List Char
  docSize : Nat
deriving DecidableEq

/-- The success payload of `signDocument` (the i18n `message`, the
`signatureDate`, the random `certificateId` and the `duration` are not
modelled). -/
structure SingleSignOutcome where
  success : Bool
  originalName : List Char
  signedName : List Char
  size : ℚ
  signerName : String
deriving DecidableEq

/-- Embeds the resolution of `DigitalSignerApp.signDocument` with the
failure draw of `Math.random()` made explicit. -/
def signDocumentResult (data : SingleDocData) (failureDraw : ℚ) :
    Except String SingleSignOutcome :=
  if failureDraw < singleFailureThreshold then
    Except.error "Falha na comunicação com o servidor"
  else
    Except.ok
      { success := true
        originalName := data.docName
        signedName := "signed_".toList ++ data.docName
        size := (data.docSize : ℚ) * (11 / 10)
        signerName := data.signerName }

/-- C6: the simulator rejects with the communication-failure error exactly
when the uniform draw falls below the fixed threshold — 0.05 on the
multi-document path, 0.10 on the single-document legacy path — and
otherwise resolves with the synthesized outcome; the scheduled delays lie
in [3000, 5000) ms and [2000, 3000) ms respectively for draws in [0, 1). -/
theorem simulator_fault_injection (data : MultipleItemsData)
    (sdata : SingleDocData) (q qs d ds : ℚ)
    (hd0 : 0 ≤ d) (hd1 : d < 1) (hds0 : 0 ≤ ds) (hds1 : ds < 1) :
    (signMultipleDocumentsResult data q
        = Except.error "Falha na comunicação com o servidor" ↔ q < 5 / 100) ∧
    (¬ q < 5 / 100 → signMultipleDocumentsResult data q
        = Except.ok ⟨true, signingResults data, data.sequentialSigning⟩) ∧
    (signDocumentResult sdata qs
        = Except.error "Falha na comunicação com o servidor" ↔ qs < 10 / 100) ∧
    (¬ qs < 10 / 100 → signDocumentResult sdata qs
        = Except.ok ⟨true, sdata.docName, "signed_".toList ++ sdata.docName,
            (sdata.docSize : ℚ) * (11 / 10), sdata.signerName⟩) ∧
    3000 ≤ multiDelayMs d ∧ multiDelayMs d < 5000 ∧
    2000 ≤ singleDelayMs ds ∧ singleDelayMs ds < 3000 := by
  refine ⟨?_, ?_, ?_, ?_, ?_, ?_, ?_, ?_⟩
  · unfold signMultipleDocumentsResult multiFailureThreshold
    by_cases hq : q < 5 / 100
    · simp [hq]
    · simp [hq]
  · intro hq
    unfold signMultipleDocumentsResult multiFailureThreshold
    rw [if_neg hq]
  · unfold signDocumentResult singleFailureThreshold
    by_cases hq : qs < 10 / 100
    · simp [hq]
    · simp [hq]
  · intro hq
    unfold signDocumentResult singleFailureThreshold
    rw [if_neg hq]
  · unfold multiDelayMs
    nlinarith
  · unfold multiDelayMs
    nlinarith
  · unfold singleDelayMs
    nlinarith
  · unfold singleDelayMs
    nlinarith

/-- Witness for C6: a draw of 0.5 resolves both paths successfully, a draw
of 0.01 fails the multi path, 0.07 fails the single path, and the concrete
delays fall in the stated ranges. -/
theorem simulator_fault_injection_witness :
    (signMultipleDocumentsResult
        ⟨[], [], false, none⟩ (1 / 100)
      = Except.error "Falha na comunicação com o servidor") ∧
    (signMultipleDocumentsResult ⟨[], [], false, none⟩ (1 / 2)
      = Except.ok ⟨true, [], false⟩) ∧
    (signDocumentResult ⟨"Ana", "a.pdf".toList, 4⟩ (7 / 100)
      = Except.error "Falha na comunicação com o servidor") ∧
    (3000 ≤ multiDelayMs (1 / 2) ∧ multiDelayMs (1 / 2) < 5000) ∧
    (2000 ≤ singleDelayMs (1 / 2) ∧ singleDelayMs (1 / 2) < 3000) := by
  have hfail := simulator_fault_injection ⟨[], [], false, none⟩
    ⟨"Ana", "a.pdf".toList, 4⟩ (1 / 100) (7 / 100) (1 / 2) (1 / 2)
    (by norm_num) (by norm_num) (by norm_num) (by norm_num)
  have hok := simulator_fault_injection ⟨[], [], false, none⟩
    ⟨"Ana", "a.pdf".toList, 4⟩ (1 / 2) (7 / 100) (1 / 2) (1 / 2)
    (by norm_num) (by norm_num) (by norm_num) (by norm_num)
  refine ⟨?_, ?_, ?_, ⟨hfail.2.2.2.2.1, hfail.2.2.2.2.2.1⟩,
    ⟨hfail.2.2.2.2.2.2.1, hfail.2.2.2.2.2.2.2⟩⟩
  · exact hfail.1.mpr (by norm_num)
  · exact hok.2.1 (by norm_num)
  · exact hfail.2.2.1.mpr (by norm_num)

/-- A request with sequential signing whose assignment associates only the
second collection signer (global index 1) with the only file. -/
def cexData : MultipleItemsData :=
  { files := [⟨"f1", "a.pdf".toList, 100, "application/pdf"⟩]
    signers := [⟨"Ana", "ana@example.com", "assinante", 0⟩,
      ⟨"Bia", "bia@example.com", "testemunha", 1⟩]
    sequentialSigning := true
    documentAssignments := some [(1, ["f1"])] }

/-- C1 counterexample: in `cexData` the only file's associated-signer
sequence has exactly one element, so that signer's position within the
sequence is 0 — yet its synthesized status is `pending`, not `signed`,
refuting "a signer's status is `signed` if sequential is false or the
signer's position within that document's associated-signer sequence is 0"
and "when sequential is true, for every document exactly the first
associated signer starts `signed`". -/
theorem status_not_by_sequence_position_cex :
    cexData.sequentialSigning = true ∧
    ((signingResults cexData).map (fun r => r.signers.map (fun e => e.status)))
      = [["pending"]] ∧
    [["pending"]] ≠ [["signed"]] := by
  refine ⟨rfl, by decide, by decide⟩

/-- C1 amended: a signer's status is assigned deterministically from the
sequential flag and the signer's index in the full Signer Collection — not
from its position within the document's filtered sequence: `signed` when
sequential is false or that index is 0, `pending` otherwise; so with an
AssignmentEntry that excludes the collection's first signer from a
document, that document starts with no `signed` signer. -/
theorem status_by_collection_index (data : MultipleItemsData) :
    (signingResults data).map (fun r => r.signers.map (fun e => e.status))
      = data.files.map (fun file => (fileSigners data file).map (fun s =>
          if data.sequentialSigning = true ∧ 0 < s.index then "pending"
          else "signed")) := by
  unfold signingResults
  rw [List.map_map]
  refine List.map_eq_map_iff.mpr ?_
  intro file _
  simp only [Function.comp]
  rw [List.map_map]
  refine List.map_eq_map_iff.mpr ?_
  intro s _
  simp only [Function.comp]
  unfold signerStatus
  by_cases hseq : data.sequentialSigning = true
  · by_cases hidx : 0 < s.index
    · simp [hseq, hidx]
    · simp [hseq, hidx]
  · simp [Bool.not_eq_true _ ▸ hseq, hseq]

/-- C7: with assignment mode disabled, the constructed request carries no
assignments regardless of the checkbox states, and the simulator associates
every collection signer with every file: each document's status sequence
has exactly one entry per signer. -/
theorem disabled_assignment_full_cross_product (files : List FileObj)
    (signers : List SignerItem) (seq : Bool) (inputs : List CheckboxInput) :
    (managerGetFormData files signers seq false inputs).documentAssignments
      = none ∧
    (signingResults (managerGetFormData files signers seq false inputs)).map
        (fun r => r.signers.length)
      = files.map (fun _ => signers.length) := by
  refine ⟨rfl, ?_⟩
  unfold signingResults
  rw [List.map_map]
  refine List.map_eq_map_iff.mpr ?_
  intro file _
  simp only [Function.comp]
  rw [show fileSigners (managerGetFormData files signers seq false inputs) file
      = getSigners signers from rfl]
  rw [List.length_map]
  unfold getSigners
  rw [List.mapIdx_eq_enum_map, List.length_map, List.enum_length]

/-- The `FormValidator` state relevant to data collection: the `isValid`
flag computed by `validateForm` and the current values of the two
registered fields. -/
structure FormValidatorState where
  isValid : Bool
  docUploadFile : Option RawFile
  signerNameValue : String
deriving DecidableEq

/-- The data object assembled by `FormValidator.getFormData`. -/
structure CollectedFormData where
  docUpload : Option RawFile
  signerName : String
deriving DecidableEq

/-- Embeds `FormValidator.getFormData`: `throw new Error('Form is not
valid')` when `isValid` is false, otherwise collect the registered fields
(trimming text values). -/
def validatorGetFormData (st : FormValidatorState) :
    Except String CollectedFormData :=
  if !st.isValid then Except.error "Form is not valid"
  else Except.ok ⟨st.docUploadFile, jsTrim st.signerNameValue⟩

/-- Embeds the `docUpload` rule's `validate(value, file)` of
`FormValidator.defineValidationRules`: file-required, then type, then size
(fallback strings; the i18n lookup is out of scope). -/
def validateDocUpload (file : Option RawFile) : Option String :=
  match file with
  | none => some "Por favor, selecione um documento"
  | some f =>
      if ¬ isFileTypeAllowed f.name then some "Formato de arquivo não suportado"
      else if f.size > 10 * 1024 * 1024 then some "O arquivo deve ter no máximo 10MB"
      else none

/-- The character class `[a-zA-ZÀ-ÿ\s]` of the signer-name pattern (`\s`
restricted to the ASCII whitespace escapes). -/
def isNameChar (c : Char) : Bool :=
  (decide ('a' ≤ c) && decide (c ≤ 'z')) ||
  (decide ('A' ≤ c) && decide (c ≤ 'Z')) ||
  (decide ('À' ≤ c) && decide (c ≤ 'ÿ')) ||
  c == ' ' || c == '\t' || c == '\n' || c == '\r' || c == '\x0b' || c == '\x0c'

/-- The anchored pattern test `/^[a-zA-ZÀ-ÿ\s]{3,100}$/.test(value)`. -/
def namePatternTest (s : String) : Bool :=
  s.toList.all isNameChar && decide (3 ≤ s.length) && decide (s.length ≤ 100)

/-- Embeds the `signerName` rule's `validate(value)` of
`FormValidator.defineValidationRules`: trim, then required, minimum length,
maximum length, pattern. -/
def validateSignerName (value : String) : Option String :=
  let v := jsTrim value
  if v = "" then some "Por favor, informe o nome do signatário"
  else if v.length < 3 then some "O nome deve ter pelo menos 3 caracteres"
  else if v.length > 100 then some "O nome deve ter no máximo 100 caracteres"
  else if ¬ namePatternTest v then some "O nome deve conter apenas letras e espaços"
  else none

/-- Embeds the error bookkeeping of `FormValidator.validateField`:
`clearFieldError` deletes the field's stored entry, then a non-null rule
result is stored via `setFieldError` and the verdict is `false`, while a
null result marks the field valid and the verdict is `true`. -/
def validateFieldUpd (errors : List (String × String)) (fieldName : String)
    (result : Option String) : List (String × String) × Bool :=
  match result with
  | some msg => ((errors.filter (fun p => p.1 != fieldName)) ++ [(fieldName, msg)], false)
  | none => (errors.filter (fun p => p.1 != fieldName), true)

theorem lookup_of_no_key (l lr : List (String × String)) (k : String)
    (h : ∀ p ∈ l, p.1 ≠ k) : (l ++ lr).lookup k = lr.lookup k := by
  induction l with
  | nil => rfl
  | cons e es ih =>
    have hk : (k == e.1) = false :=
      beq_eq_false_iff_ne.mpr (Ne.symm (h e (by simp)))
    rw [List.cons_append]
    cases e with
    | mk k1 v1 =>
      simp only at hk
      simp only [List.lookup, hk]
      exact ih (fun p hp => h p (by simp [hp]))

theorem filter_ne_no_key (errors : List (String × String)) (k : String) :
    ∀ p ∈ errors.filter (fun p => p.1 != k), p.1 ≠ k := by
  intro p hp
  have := List.of_mem_filter hp
  simpa using this

theorem validateFieldUpd_spec (errors : List (String × String))
    (fname : String) (res : Option String) :
    ((validateFieldUpd errors fname res).2 = false ∧
      (validateFieldUpd errors fname res).1.lookup fname = res ∧
      res.isSome = true) ∨
    ((validateFieldUpd errors fname res).2 = true ∧
      (validateFieldUpd errors fname res).1.lookup fname = none ∧
      res = none) := by
  cases res with
  | some msg =>
    left
    refine ⟨rfl, ?_, rfl⟩
    unfold validateFieldUpd
    rw [lookup_of_no_key _ _ fname (filter_ne_no_key errors fname)]
    simp [List.lookup]
  | none =>
    right
    refine ⟨rfl, ?_, rfl⟩
    unfold validateFieldUpd
    have h := lookup_of_no_key (errors.filter (fun p => p.1 != fname)) [] fname
      (filter_ne_no_key errors fname)
    rw [List.append_nil] at h
    rw [h]
    rfl

/-- C5: field validation never throws — for every input the registered rule
yields either an error message, which is stored for the field with verdict
`false`, or no message, in which case the stored error is cleared and the
field is marked valid with verdict `true` — and reading the collected form
data while the form is not valid fails with the explicit "Form is not
valid" error rather than returning data. -/
theorem validation_total_and_data_guard :
    (∀ (errors : List (String × String)) (file : Option RawFile),
      ((validateFieldUpd errors "docUpload" (validateDocUpload file)).2 = false ∧
        (validateFieldUpd errors "docUpload" (validateDocUpload file)).1.lookup
          "docUpload" = validateDocUpload file ∧
        (validateDocUpload file).isSome = true) ∨
      ((validateFieldUpd errors "docUpload" (validateDocUpload file)).2 = true ∧
        (validateFieldUpd errors "docUpload" (validateDocUpload file)).1.lookup
          "docUpload" = none ∧
        validateDocUpload file = none)) ∧
    (∀ (errors : List (String × String)) (value : String),
      ((validateFieldUpd errors "signerName" (validateSignerName value)).2 = false ∧
        (validateFieldUpd errors "signerName" (validateSignerName value)).1.lookup
          "signerName" = validateSignerName value ∧
        (validateSignerName value).isSome = true) ∨
      ((validateFieldUpd errors "signerName" (validateSignerName value)).2 = true ∧
        (validateFieldUpd errors "signerName" (validateSignerName value)).1.lookup
          "signerName" = none ∧
        validateSignerName value = none)) ∧
    (∀ st : FormValidatorState, st.isValid = false →
      validatorGetFormData st = Except.error "Form is not valid") := by
  refine ⟨?_, ?_, ?_⟩
  · intro errors file
    exact validateFieldUpd_spec errors "docUpload" (validateDocUpload file)
  · intro errors value
    exact validateFieldUpd_spec errors "signerName" (validateSignerName value)
  · intro st h
    unfold validatorGetFormData
    rw [h]
    rfl

/-- Witness for C5: an invalid form state yields the explicit error, a
missing file stores the file-required message, and a valid name clears the
stored message. -/
theorem validation_total_and_data_guard_witness :
    validatorGetFormData ⟨false, none, ""⟩ = Except.error "Form is not valid" ∧
    (validateFieldUpd [] "docUpload" (validateDocUpload none)).2 = false ∧
    (validateFieldUpd [("signerName", "x")] "signerName"
      (validateSignerName "Ana Silva")).2 = true := by
  refine ⟨validation_total_and_data_guard.2.2 ⟨false, none, ""⟩ rfl, ?_, ?_⟩
  · rcases validation_total_and_data_guard.1 [] none with h | h
    · exact h.1
    · exact absurd h.2.2 (by decide)
  · rcases validation_total_and_data_guard.2.1 [("signerName", "x")] "Ana Silva"
        with h | h
    · exact absurd h.2.2 (by decide)
    · exact h.1

/-- The name branch of `MultipleItemsManager.validateSignerField`
(fallback strings; the i18n lookup is out of scope). -/
def signerNameFieldError (value : String) : Option String :=
  if jsTrim value = "" then some "Nome é obrigatório"
  else if (jsTrim value).length < 3 then
    some "Nome deve ter pelo menos 3 caracteres"
  else none

/-- The class `[^\s@]` of the email pattern. -/
def isEmailChar (c : Char) : Bool := !(c.isWhitespace || c == '@')

/-- Embeds `/^[^\s@]+@[^\s@]+\.[^\s@]+$/.test(value)`: a non-empty run of
non-space non-`@` characters, one `@`, and a remainder of non-space
non-`@` characters containing a dot that is neither its first nor its last
character (so both surrounding runs are non-empty). -/
def emailPatternTest (value : String) : Bool :=
  let cs := value.toList
  let a := cs.takeWhile (fun c => c != '@')
  match cs.dropWhile (fun c => c != '@') with
  | [] => false
  | _ :: rest =>
      !a.isEmpty && a.all isEmailChar && !rest.isEmpty && rest.all isEmailChar &&
      ((rest.drop 1).dropLast).contains '.'

/-- The email branch of `MultipleItemsManager.validateSignerField`. -/
def signerEmailFieldError (value : String) : Option String :=
  if jsTrim value = "" then some "E-mail é obrigatório"
  else if ¬ emailPatternTest value then some "E-mail inválido"
  else none

/-- The role (select) branch of `MultipleItemsManager.validateSignerField`. -/
def signerRoleFieldError (value : String) : Option String :=
  if value = "" then some "Papel é obrigatório" else none

/-- Whether every field of one signer item passes
`MultipleItemsManager.validateSignerField`. -/
def validateSignerFields (s : SignerItem) : Bool :=
  (signerNameFieldError s.name).isNone &&
  (signerEmailFieldError s.email).isNone &&
  (signerRoleFieldError s.role).isNone

/-- Embeds `MultipleItemsManager.validateAll`: `isValid` starts true, an
empty File Collection emits the minimum-one-document alert and forces it
false, and every invalid signer field forces it false. Returns the verdict
and the alerts emitted. -/
def validateAll (files : List FileObj) (signers : List SignerItem) :
    Bool × List Alert :=
  ((!files.isEmpty) && signers.all validateSignerFields,
   if files.isEmpty then [Alert.minOneDocument] else [])

/-- C10: with an empty File Collection, `validateAll` returns false and
emits the select-at-least-one-document notice — blocking submission — for
every signer list, even one whose every field is individually valid (the
second conjunct exhibits such a signer). -/
theorem empty_files_blocks_submission :
    (∀ signers : List SignerItem,
      validateAll [] signers = (false, [Alert.minOneDocument])) ∧
    validateSignerFields ⟨0, "Ana Silva", "ana@example.com", "assinante"⟩
      = true := by
  constructor
  · intro signers
    unfold validateAll
    simp
  · decide
